import Mathlib

/-!
A verification development for the electricitymap-contrib slice consisting of
the shared event model (production/storage mixes, typed events, event lists)
and the two representative parser adapters (`parsers/AT.py` for Austrian
cross-border exchanges and `parsers/NED.py` for Dutch production statistics).

Numeric values are modelled as exact rationals (`ℚ`); an absent or NaN float
is modelled as `none : Option ℚ` (the Python code converts NaN to None at the
model boundary, and the validators reject NaN exactly where they reject None).
Datetimes are modelled as a timezone-aware flag together with the underlying
UTC instant (integer seconds) and a display offset in minutes; the offset is
what a local wall-clock representation adds on top of the instant.
-/

namespace ElectricityMap

/-- Decidable equality for `Except`, used to evaluate the model on concrete
inputs. -/
instance {ε α : Type} [DecidableEq ε] [DecidableEq α] : DecidableEq (Except ε α) :=
  fun x y =>
    match x, y with
    | .ok a, .ok b =>
      if h : a = b then isTrue (by rw [h])
      else isFalse (fun hc => h (by injection hc))
    | .error a, .error b =>
      if h : a = b then isTrue (by rw [h])
      else isFalse (fun hc => h (by injection hc))
    | .ok _, .error _ => isFalse (fun hc => Except.noConfusion hc)
    | .error _, .ok _ => isFalse (fun hc => Except.noConfusion hc)

/-- Production-mode vocabulary (the shared constant `PRODUCTION_MODES`; the
spec fixes this minimum set in §3). -/
def PRODUCTION_MODES : List String :=
  ["biomass", "coal", "gas", "geothermal", "hydro", "nuclear", "oil", "solar",
   "unknown", "wind"]

/-- Storage-mode vocabulary (the shared constant `STORAGE_MODES`). -/
def STORAGE_MODES : List String := ["battery", "hydro"]

/-- Entry update for an association list of explicitly-touched modes: replaces
the value of `mode` if present, otherwise appends it. -/
def setEntry (l : List (String × Option ℚ)) (mode : String) (v : Option ℚ) :
    List (String × Option ℚ) :=
  match l with
  | [] => [(mode, v)]
  | (m, w) :: rest =>
    if m = mode then (mode, v) :: rest else (m, w) :: setEntry rest mode v

/-- Lookup of a touched mode in an association list; `none` when the mode was
never touched. -/
def lookupEntry (l : List (String × Option ℚ)) (mode : String) :
    Option (Option ℚ) :=
  match l with
  | [] => none
  | (m, w) :: rest => if m = mode then some w else lookupEntry rest mode

/-- Insert a mode into a set-like list of modes (no duplicates). -/
def insertMode (l : List String) (mode : String) : List String :=
  if mode ∈ l then l else l ++ [mode]

/-- Modelled from the spec: `ProductionMix` of
`electricitymap/contrib/lib/models/events.py` is not part of this slice.
A production mix records, per explicitly-touched production mode, an optional
non-negative value, plus the set of modes whose reported value was negative
and was corrected (`_corrected_negative_values`).  The behavior follows §3 of
the spec as pinned by the in-repo test suites (`TestMixAddValue`,
`TestMixesInternalMethods` in
`electricitymap/contrib/lib/tests/test_events.py`). -/
structure ProductionMix where
  entries : List (String × Option ℚ)
  corrected : List String
deriving DecidableEq

/-- ProductionMix with no mode touched and no corrected mode. -/
def ProductionMix.empty : ProductionMix := ⟨[], []⟩

/-- Current value of a mode: `none` when the mode is untouched or was stored
as absent. -/
def ProductionMix.get (m : ProductionMix) (mode : String) : Option ℚ :=
  match lookupEntry m.entries mode with
  | none => none
  | some w => w

/-- Modelled from the spec: direct set (attribute or key assignment) on a
production mix.  An unknown mode is an error (`AttributeError` in the Python
source); a negative value collapses to absent and marks the mode corrected;
NaN is modelled as `none`. -/
def ProductionMix.setMode (m : ProductionMix) (mode : String) (v : Option ℚ) :
    Except String ProductionMix :=
  if mode ∈ PRODUCTION_MODES then
    match v with
    | some x =>
      if x < 0 then
        .ok ⟨setEntry m.entries mode none, insertMode m.corrected mode⟩
      else
        .ok ⟨setEntry m.entries mode (some x), m.corrected⟩
    | none => .ok ⟨setEntry m.entries mode none, m.corrected⟩
  else .error ("Unknown production mode: " ++ mode)

/-- Modelled from the spec: `ProductionMix.add_value` of
`electricitymap/contrib/lib/models/events.py` is not part of this slice; the
behavior follows §3 of the spec as pinned by the in-repo test suite
(`TestMixAddValue`), which fixes that the clamp applies to the negative
amount itself: a negative amount marks the mode corrected and is replaced by
absent (or `0` when `correct_negative_with_zero` is set) before accumulation;
a NaN amount (modelled `none`) behaves as absent; the (possibly clamped)
amount is then accumulated into the existing value, the pair
(amount, existing) treating an absent member as zero when the other one is
present, and the result is stored through the direct-set path. -/
def ProductionMix.add_value (m : ProductionMix) (mode : String)
    (amount : Option ℚ) (czero : Bool) : Except String ProductionMix :=
  if mode ∈ PRODUCTION_MODES then
    let clamped : Option ℚ × Bool :=
      match amount with
      | some a =>
        if a < 0 then ((if czero then some 0 else none), true)
        else (some a, false)
      | none => (none, false)
    let value : Option ℚ :=
      match m.get mode with
      | some e => some (clamped.1.getD 0 + e)
      | none => clamped.1
    let m1 : ProductionMix :=
      ⟨m.entries, if clamped.2 then insertMode m.corrected mode else m.corrected⟩
    m1.setMode mode value
  else .error ("Unknown production mode: " ++ mode)

/-- Modelled from the spec: `StorageMix` (structurally like `ProductionMix`
but over the storage modes, and negative values are meaningful and kept). -/
structure StorageMix where
  entries : List (String × Option ℚ)
deriving DecidableEq

/-- StorageMix with no mode touched. -/
def StorageMix.empty : StorageMix := ⟨[]⟩

/-- Current value of a storage mode. -/
def StorageMix.get (m : StorageMix) (mode : String) : Option ℚ :=
  match lookupEntry m.entries mode with
  | none => none
  | some w => w

/-- Modelled from the spec: direct set on a storage mix keeps the sign. -/
def StorageMix.setMode (m : StorageMix) (mode : String) (v : Option ℚ) :
    Except String StorageMix :=
  if mode ∈ STORAGE_MODES then .ok ⟨setEntry m.entries mode v⟩
  else .error ("Unknown storage mode: " ++ mode)

/-- Modelled from the spec: `StorageMix.add_value` accumulates without any
negative correction. -/
def StorageMix.add_value (m : StorageMix) (mode : String)
    (amount : Option ℚ) : Except String StorageMix :=
  if mode ∈ STORAGE_MODES then
    let value : Option ℚ :=
      match m.get mode with
      | some e => some (amount.getD 0 + e)
      | none => amount
    .ok ⟨setEntry m.entries mode value⟩
  else .error ("Unknown storage mode: " ++ mode)

theorem lookupEntry_setEntry_self (l : List (String × Option ℚ)) (mode : String)
    (v : Option ℚ) : lookupEntry (setEntry l mode v) mode = some v := by
  induction l with
  | nil => simp [setEntry, lookupEntry]
  | cons hd tl ih =>
    obtain ⟨hm, hw⟩ := hd
    by_cases h : hm = mode
    · subst h; simp [setEntry, lookupEntry]
    · simp [setEntry, lookupEntry, h, ih]

theorem lookupEntry_setEntry_other (l : List (String × Option ℚ))
    (mode mode2 : String) (v : Option ℚ) (h : mode2 ≠ mode) :
    lookupEntry (setEntry l mode v) mode2 = lookupEntry l mode2 := by
  induction l with
  | nil => simp [setEntry, lookupEntry, Ne.symm h]
  | cons hd tl ih =>
    obtain ⟨hm, hw⟩ := hd
    by_cases h1 : hm = mode
    · subst h1; simp [setEntry, lookupEntry, Ne.symm h]
    · by_cases h2 : hm = mode2
      · subst h2; simp [setEntry, lookupEntry, h1]
      · simp [setEntry, lookupEntry, h1, h2, ih]

theorem ProductionMix.get_mk_set_self (l : List (String × Option ℚ))
    (c : List String) (mode : String) (v : Option ℚ) :
    ProductionMix.get ⟨setEntry l mode v, c⟩ mode = v := by
  cases v <;> simp [ProductionMix.get, lookupEntry_setEntry_self]

theorem ProductionMix.get_mk_set_other (l : List (String × Option ℚ))
    (c : List String) (mode mode2 : String) (v : Option ℚ) (h : mode2 ≠ mode) :
    ProductionMix.get ⟨setEntry l mode v, c⟩ mode2 =
      ProductionMix.get ⟨l, c⟩ mode2 := by
  simp [ProductionMix.get, lookupEntry_setEntry_other _ _ _ _ h]

/-- Adding a non-negative amount accumulates it onto the existing value
(an absent existing value counting as zero) without touching the
corrected-mode set. -/
theorem add_value_nonneg (m : ProductionMix) (mode : String) (a : ℚ)
    (czero : Bool) (hmode : mode ∈ PRODUCTION_MODES) (ha : 0 ≤ a)
    (hprior : 0 ≤ (m.get mode).getD 0) :
    m.add_value mode (some a) czero =
      .ok ⟨setEntry m.entries mode (some (a + (m.get mode).getD 0)),
           m.corrected⟩ := by
  have hne : ¬ a < 0 := not_lt.mpr ha
  cases hget : m.get mode with
  | none =>
    have h0 : ¬ a + (0 : ℚ) < 0 := by linarith
    simp [ProductionMix.add_value, hmode, hget, ProductionMix.setMode, hne, h0]
  | some e =>
    have he : (0 : ℚ) ≤ e := by simpa [hget] using hprior
    have h0 : ¬ a + e < 0 := by linarith
    simp [ProductionMix.add_value, hmode, hget, ProductionMix.setMode, hne, h0]

/-- Adding a negative amount with the default policy marks the mode corrected
and leaves the stored value unchanged (the clamped amount is absent). -/
theorem add_value_neg_default (m : ProductionMix) (mode : String) (a : ℚ)
    (hmode : mode ∈ PRODUCTION_MODES) (ha : a < 0)
    (hprior : 0 ≤ (m.get mode).getD 0) :
    m.add_value mode (some a) false =
      .ok ⟨setEntry m.entries mode (m.get mode),
           insertMode m.corrected mode⟩ := by
  cases hget : m.get mode with
  | none => simp [ProductionMix.add_value, hmode, hget, ProductionMix.setMode, ha]
  | some e =>
    have he : (0 : ℚ) ≤ e := by simpa [hget] using hprior
    have h0 : ¬ e < 0 := not_lt.mpr he
    simp [ProductionMix.add_value, hmode, hget, ProductionMix.setMode, ha, h0]

/-- Adding a negative amount with `correct_negative_with_zero` marks the mode
corrected and stores the existing value (zero when there was none). -/
theorem add_value_neg_zero (m : ProductionMix) (mode : String) (a : ℚ)
    (hmode : mode ∈ PRODUCTION_MODES) (ha : a < 0)
    (hprior : 0 ≤ (m.get mode).getD 0) :
    m.add_value mode (some a) true =
      .ok ⟨setEntry m.entries mode (some ((m.get mode).getD 0)),
           insertMode m.corrected mode⟩ := by
  cases hget : m.get mode with
  | none =>
    simp [ProductionMix.add_value, hmode, hget, ProductionMix.setMode, ha]
  | some e =>
    have he : (0 : ℚ) ≤ e := by simpa [hget] using hprior
    have h0 : ¬ e < 0 := not_lt.mpr he
    simp [ProductionMix.add_value, hmode, hget, ProductionMix.setMode, ha, h0]

/-- Adding an absent (or NaN) amount keeps the stored value and the corrected
set unchanged (it only marks the mode as touched). -/
theorem add_value_absent (m : ProductionMix) (mode : String) (czero : Bool)
    (hmode : mode ∈ PRODUCTION_MODES)
    (hprior : 0 ≤ (m.get mode).getD 0) :
    m.add_value mode none czero =
      .ok ⟨setEntry m.entries mode (m.get mode), m.corrected⟩ := by
  cases hget : m.get mode with
  | none => simp [ProductionMix.add_value, hmode, hget, ProductionMix.setMode]
  | some e =>
    have he : (0 : ℚ) ≤ e := by simpa [hget] using hprior
    have h0 : ¬ e < 0 := not_lt.mpr he
    simp [ProductionMix.add_value, hmode, hget, ProductionMix.setMode, h0]

/-- Code-point lexicographic strict order on character lists, as Python
compares strings. -/
def lexLt : List Char → List Char → Bool
  | [], [] => false
  | [], _ :: _ => true
  | _ :: _, [] => false
  | c :: cs, d :: ds =>
    if c.toNat < d.toNat then true
    else if d.toNat < c.toNat then false
    else lexLt cs ds

/-- Strict lexicographic order on strings (Python `<` on `str`). -/
def strLtB (a b : String) : Bool := lexLt a.data b.data

theorem lexLt_asymm : ∀ a b : List Char, lexLt a b = true → lexLt b a = false
  | [], [] => by simp [lexLt]
  | [], _ :: _ => by simp [lexLt]
  | _ :: _, [] => by simp [lexLt]
  | c :: cs, d :: ds => by
    simp only [lexLt]
    rcases Nat.lt_trichotomy c.toNat d.toNat with h | h | h
    · simp [h, Nat.lt_asymm h]
    · simp only [h, Nat.lt_irrefl, if_false]
      exact lexLt_asymm cs ds
    · simp [h, Nat.lt_asymm h]

theorem lexLt_eq_of_not_lt : ∀ a b : List Char,
    lexLt a b = false → lexLt b a = false → a = b
  | [], [] => by simp
  | [], _ :: _ => by simp [lexLt]
  | _ :: _, [] => by simp [lexLt]
  | c :: cs, d :: ds => by
    simp only [lexLt]
    rcases Nat.lt_trichotomy c.toNat d.toNat with h | h | h
    · simp [h]
    · have hc : c = d :=
        Char.ext (UInt32.ext (by simpa [Char.toNat] using h))
      intro h1 h2
      simp only [h, Nat.lt_irrefl, if_false] at h1 h2
      rw [hc, lexLt_eq_of_not_lt cs ds h1 h2]
    · simp [h, Nat.lt_asymm h]

theorem strLtB_eq_of_not_lt (a b : String) (h1 : strLtB a b = false)
    (h2 : strLtB b a = false) : a = b := by
  cases a with
  | mk la =>
    cases b with
    | mk lb =>
      have := lexLt_eq_of_not_lt la lb h1 h2
      rw [this]

/-- Split a character list on each occurrence of the two-character separator
`->` (Python `str.split("->")`). -/
def splitOnArrow : List Char → List (List Char)
  | [] => [[]]
  | '-' :: '>' :: rest => [] :: splitOnArrow rest
  | c :: rest =>
    match splitOnArrow rest with
    | [] => [[c]]
    | s :: ss => (c :: s) :: ss

/-- Modelled from the spec: exchange-shaped `ZoneKey` validation
(`electricitymap/contrib/lib/types.py` is not part of this slice): two
non-empty identifiers joined by `->` in strict alphabetical order, both sides
distinct and neither equal to the placeholder `UNKNOWN` (§4.2). -/
def validateExchangeKey (k : String) : Bool :=
  match splitOnArrow k.data with
  | [a, b] =>
    (!a.isEmpty) && (!b.isEmpty) && lexLt a b &&
    (!decide (a = "UNKNOWN".data)) && (!decide (b = "UNKNOWN".data))
  | _ => false

/-- Modelled from the spec: bare-zone `ZoneKey` validation; a non-empty
identifier containing no `->` (§4.2). -/
def validateBareKey (k : String) : Bool :=
  match splitOnArrow k.data with
  | [a] => !a.isEmpty
  | _ => false

/-- A timezone-aware instant: `utcSeconds` is the underlying UTC instant,
`offsetMinutes` the local display offset (what a wall clock in that timezone
adds on top of UTC), `aware` whether timezone information is present at all. -/
structure Datetime where
  utcSeconds : ℤ
  offsetMinutes : ℤ
  aware : Bool
deriving DecidableEq

/-- Modelled from the spec: `EventSourceType` with the two variants exercised
in this slice (§3). -/
inductive EventSourceType where
  | measured
  | forecasted
deriving DecidableEq

/-- Modelled from the spec: the fixed set of recognized ISO 4217 currency
codes used by `Price` validation (the authoritative list is a shared
constant; the slice exercises `EUR` valid and `EURO` invalid). -/
def KNOWN_CURRENCIES : List String := ["EUR", "GBP", "USD"]

/-- True when a production mix has at least one mode with a present value. -/
def mixHasData (p : ProductionMix) : Bool := p.entries.any (fun e => e.2.isSome)

/-- True when a storage mix has at least one mode with a present value. -/
def storageHasData (s : StorageMix) : Bool := s.entries.any (fun e => e.2.isSome)

/-- Modelled from the spec: the `Exchange` event record (§3). -/
structure Exchange where
  zoneKey : String
  datetime : Datetime
  netFlow : ℚ
  source : String
  sourceType : EventSourceType
deriving DecidableEq

/-- Modelled from the spec: the raising `Exchange` constructor; `now` is the
explicit current instant the future-datetime policy is evaluated against
(§4.3, §9).  An absent/NaN net flow is `none`. -/
def Exchange.mk? (now : ℤ) (zoneKey : String) (datetime : Datetime)
    (netFlow : Option ℚ) (source : String) (sourceType : EventSourceType) :
    Except String Exchange :=
  if validateExchangeKey zoneKey then
    if datetime.aware then
      if sourceType ≠ EventSourceType.forecasted ∧ now < datetime.utcSeconds then
        .error "Date is in the future"
      else
        match netFlow with
        | none => .error "netFlow is None or NaN"
        | some f => .ok ⟨zoneKey, datetime, f, source, sourceType⟩
    else .error "Missing timezone information"
  else .error ("Not a valid exchange key: " ++ zoneKey)

/-- Modelled from the spec: the `TotalConsumption` event record (§3). -/
structure TotalConsumption where
  zoneKey : String
  datetime : Datetime
  consumption : ℚ
  source : String
  sourceType : EventSourceType
deriving DecidableEq

/-- Modelled from the spec: the raising `TotalConsumption` constructor;
consumption is required, non-NaN and non-negative (§3). -/
def TotalConsumption.mk? (now : ℤ) (zoneKey : String) (datetime : Datetime)
    (consumption : Option ℚ) (source : String)
    (sourceType : EventSourceType) : Except String TotalConsumption :=
  if validateBareKey zoneKey then
    if datetime.aware then
      if sourceType ≠ EventSourceType.forecasted ∧ now < datetime.utcSeconds then
        .error "Date is in the future"
      else
        match consumption with
        | none => .error "consumption is None or NaN"
        | some c =>
          if c < 0 then .error "consumption is negative"
          else .ok ⟨zoneKey, datetime, c, source, sourceType⟩
    else .error "Missing timezone information"
  else .error ("Not a valid zone key: " ++ zoneKey)

/-- Modelled from the spec: the `TotalProduction` event record (§3). -/
structure TotalProduction where
  zoneKey : String
  datetime : Datetime
  value : ℚ
  source : String
  sourceType : EventSourceType
deriving DecidableEq

/-- Modelled from the spec: the raising `TotalProduction` constructor; the
value is required, non-NaN and non-negative (§3). -/
def TotalProduction.mk? (now : ℤ) (zoneKey : String) (datetime : Datetime)
    (value : Option ℚ) (source : String) (sourceType : EventSourceType) :
    Except String TotalProduction :=
  if validateBareKey zoneKey then
    if datetime.aware then
      if sourceType ≠ EventSourceType.forecasted ∧ now < datetime.utcSeconds then
        .error "Date is in the future"
      else
        match value with
        | none => .error "value is None or NaN"
        | some v =>
          if v < 0 then .error "value is negative"
          else .ok ⟨zoneKey, datetime, v, source, sourceType⟩
    else .error "Missing timezone information"
  else .error ("Not a valid zone key: " ++ zoneKey)

/-- Modelled from the spec: the `Price` event record (§3). -/
structure Price where
  zoneKey : String
  datetime : Datetime
  price : ℚ
  currency : String
  source : String
  sourceType : EventSourceType
deriving DecidableEq

/-- Modelled from the spec: the raising `Price` constructor; the price is
required and non-NaN, the currency must be a recognized code.  As pinned by
the in-repo test `test_prices_can_be_in_future`, `Price` performs no
future-datetime check (day-ahead prices are legitimate). -/
def Price.mk? (zoneKey : String) (datetime : Datetime) (price : Option ℚ)
    (currency : String) (source : String) (sourceType : EventSourceType) :
    Except String Price :=
  if validateBareKey zoneKey then
    if datetime.aware then
      match price with
      | none => .error "price is None or NaN"
      | some p =>
        if currency ∈ KNOWN_CURRENCIES then
          .ok ⟨zoneKey, datetime, p, currency, source, sourceType⟩
        else .error ("Unknown currency: " ++ currency)
    else .error "Missing timezone information"
  else .error ("Not a valid zone key: " ++ zoneKey)

/-- Modelled from the spec: the `ProductionBreakdown` event record (§3). -/
structure ProductionBreakdown where
  zoneKey : String
  datetime : Datetime
  production : Option ProductionMix
  storage : Option StorageMix
  source : String
  sourceType : EventSourceType
deriving DecidableEq

/-- Modelled from the spec: the raising `ProductionBreakdown` constructor;
at least one of production/storage must be given and every given mix must
carry at least one present value (a mix whose touched modes are all absent is
rejected, as pinned by `test_invalid_breakdown_raises`). -/
def ProductionBreakdown.mk? (now : ℤ) (zoneKey : String) (datetime : Datetime)
    (production : Option ProductionMix) (storage : Option StorageMix)
    (source : String) (sourceType : EventSourceType) :
    Except String ProductionBreakdown :=
  if validateBareKey zoneKey then
    if datetime.aware then
      if sourceType ≠ EventSourceType.forecasted ∧ now < datetime.utcSeconds then
        .error "Date is in the future"
      else
        match production, storage with
        | none, none => .error "Production and storage cannot both be None"
        | some p, none =>
          if mixHasData p then
            .ok ⟨zoneKey, datetime, some p, none, source, sourceType⟩
          else .error "Mix is empty"
        | none, some s =>
          if storageHasData s then
            .ok ⟨zoneKey, datetime, none, some s, source, sourceType⟩
          else .error "Mix is empty"
        | some p, some s =>
          if mixHasData p && storageHasData s then
            .ok ⟨zoneKey, datetime, some p, some s, source, sourceType⟩
          else .error "Mix is empty"
    else .error "Missing timezone information"
  else .error ("Not a valid zone key: " ++ zoneKey)

/-- Split a character list on each occurrence of the two-character separator
`, ` (Python `str.split(", ")`). -/
def splitOnCommaSpace : List Char → List (List Char)
  | [] => [[]]
  | ',' :: ' ' :: rest => [] :: splitOnCommaSpace rest
  | c :: rest =>
    match splitOnCommaSpace rest with
    | [] => [[c]]
    | s :: ss => (c :: s) :: ss

/-- Join a list of strings with the separator `, `. -/
def joinCommaSpace : List String → String
  | [] => ""
  | [s] => s
  | s :: rest => s ++ ", " ++ joinCommaSpace rest

/-- Modelled from the spec: the source string produced when two events are
reconciled, Python `", ".join(set(f"(old), (new)".split(", ")))` — the set of
unique comma-space-separated source components of both events, re-joined.
Python's set iteration order is arbitrary; the model fixes the canonical
order of `List.dedup`. -/
def mergeSources (a b : String) : String :=
  joinCommaSpace
    (((splitOnCommaSpace (a.data ++ (", ".data ++ b.data))).map String.mk).dedup)

/-- Production value of an optional mix. -/
def getP (p : Option ProductionMix) (mode : String) : Option ℚ :=
  match p with
  | none => none
  | some m => m.get mode

/-- Storage value of an optional mix. -/
def getS (s : Option StorageMix) (mode : String) : Option ℚ :=
  match s with
  | none => none
  | some m => m.get mode

/-- Field-level fallback: the new value when present, the old one otherwise. -/
def optFallback (n o : Option ℚ) : Option ℚ :=
  match n with
  | some v => some v
  | none => o

/-- Modes explicitly touched by a production mix, in order. -/
def touchedModes (m : ProductionMix) : List String := m.entries.map Prod.fst

/-- Modes explicitly touched by a storage mix, in order. -/
def touchedStorageModes (s : StorageMix) : List String := s.entries.map Prod.fst

/-- Order-preserving union of two mode lists. -/
def unionModes (a b : List String) : List String :=
  a ++ b.filter (fun md => decide (md ∉ a))

/-- Modelled from the spec: `ProductionMix._update` — mode-level fallback
merge of two production mixes; new values win, old values fill gaps, the
corrected-mode sets are unioned (§4.3). -/
def mixUpdate (o n : ProductionMix) : ProductionMix :=
  ⟨(unionModes (touchedModes o) (touchedModes n)).map
      (fun md => (md, optFallback (n.get md) (o.get md))),
   unionModes o.corrected n.corrected⟩

/-- Modelled from the spec: `StorageMix._update` — mode-level fallback merge
of two storage mixes. -/
def storageUpdate (o n : StorageMix) : StorageMix :=
  ⟨(unionModes (touchedStorageModes o) (touchedStorageModes n)).map
      (fun md => (md, optFallback (n.get md) (o.get md)))⟩

/-- Fallback merge on optional production mixes (a missing side is replaced
by the other one). -/
def omixUpdate : Option ProductionMix → Option ProductionMix →
    Option ProductionMix
  | none, none => none
  | some o, none => some o
  | none, some n => some n
  | some o, some n => some (mixUpdate o n)

/-- Fallback merge on optional storage mixes. -/
def osmixUpdate : Option StorageMix → Option StorageMix → Option StorageMix
  | none, none => none
  | some o, none => some o
  | none, some n => some n
  | some o, some n => some (storageUpdate o n)

/-- Modelled from the spec: `ProductionBreakdown._update` — a new event
representing the fresh one with optional fields filled from the old one at
mode level, the source strings union-joined, and the fresh event's zone key,
datetime and source type (§4.3, pinned by
`test_update_production_with_different_source`). -/
def eventUpdate (o n : ProductionBreakdown) : ProductionBreakdown :=
  { zoneKey := n.zoneKey
    datetime := n.datetime
    production := omixUpdate o.production n.production
    storage := osmixUpdate o.storage n.storage
    source := mergeSources o.source n.source
    sourceType := n.sourceType }

/-- Datetimes (underlying instants) of the events of a list. -/
def dtsOf (l : List ProductionBreakdown) : List ℤ :=
  l.map (fun e => e.datetime.utcSeconds)

/-- First event of a list at a given instant. -/
def findEvt (l : List ProductionBreakdown) (t : ℤ) :
    Option ProductionBreakdown :=
  l.find? (fun e => decide (e.datetime.utcSeconds = t))

/-- The reconciled event (if any) of an update at one instant. -/
def buildAt (old new : List ProductionBreakdown) (t : ℤ) :
    Option ProductionBreakdown :=
  match findEvt old t, findEvt new t with
  | some o, some n => some (eventUpdate o n)
  | some o, none => some o
  | none, some n => some n
  | none, none => none

/-- One event per distinct instant of the union of both lists, in ascending
datetime order. -/
def updateMergeCore (old new : List ProductionBreakdown) :
    List ProductionBreakdown :=
  (((dtsOf old ++ dtsOf new).dedup).insertionSort (· ≤ ·)).filterMap
    (buildAt old new)

/-- Modelled from the spec:
`ProductionBreakdownList.update_production_breakdowns` of
`electricitymap/contrib/lib/models/event_lists.py` is not part of this
slice; the behavior follows §4.4 of the spec as pinned by the in-repo test
suite (`TestProductionBreakdownList`): an empty side degenerates to the
other list, a zone-key or source-type mismatch is an invalid-input error,
and otherwise the result carries one reconciled event per distinct datetime
of the union. -/
def update_production_breakdowns (old new : List ProductionBreakdown) :
    Except String (List ProductionBreakdown) :=
  if old = [] then .ok new
  else if new = [] then .ok old
  else if ((old ++ new).map ProductionBreakdown.zoneKey).dedup.length ≠ 1 then
    .error "Trying to update production breakdowns from different zones"
  else if ((old ++ new).map ProductionBreakdown.sourceType).dedup.length ≠ 1 then
    .error "Trying to update production breakdowns from different source types"
  else .ok (updateMergeCore old new)

/-- Modelled from the spec: `ExchangeList.merge_exchanges` of
`electricitymap/contrib/lib/models/event_lists.py` is not part of this
slice; the behavior follows §4.4 of the spec: events are grouped by exact
datetime, net flows are summed (an absent/NaN flow never enters a list, so
every stored flow contributes), the unique source strings are comma-space
joined, and the output is sorted by datetime. -/
def merge_exchanges (lists : List (List Exchange)) : List Exchange :=
  let all := lists.flatten
  (((all.map (fun e => e.datetime.utcSeconds)).dedup).insertionSort
      (· ≤ ·)).filterMap
    (fun t =>
      match all.filter (fun e => decide (e.datetime.utcSeconds = t)) with
      | [] => none
      | e0 :: rest =>
        some { zoneKey := e0.zoneKey
               datetime := e0.datetime
               netFlow := ((e0 :: rest).map Exchange.netFlow).sum
               source := joinCommaSpace
                 (((e0 :: rest).map Exchange.source).dedup)
               sourceType := e0.sourceType })

/-- Fixed code-to-mode table of `parsers/NED.py` (`TYPE_MAPPING`). -/
def TYPE_MAPPING (code : ℕ) : Option String :=
  match code with
  | 1 => some "wind"
  | 51 => some "wind"
  | 2 => some "solar"
  | 9 => some "geothermal"
  | 10 => some "unknown"
  | 26 => some "unknown"
  | 18 => some "gas"
  | 35 => some "gas"
  | 19 => some "coal"
  | 20 => some "nuclear"
  | 21 => some "biomass"
  | 25 => some "biomass"
  | _ => none

/-- One upstream record of the NED utilizations API as consumed by
`format_data`: the path-style `type` string, the energy `volume` in kWh, and
the `validfrom` timestamp (already timezone-aware, modelled by its UTC
instant). -/
structure NedRecord where
  type : String
  volume : ℚ
  validfrom : ℤ
deriving DecidableEq

/-- Python `round` to an integer: round half to even. -/
def roundHalfEven (q : ℚ) : ℤ :=
  if q - ⌊q⌋ < 1 / 2 then ⌊q⌋
  else if (1 : ℚ) / 2 < q - ⌊q⌋ then ⌊q⌋ + 1
  else if (2 : ℤ) ∣ ⌊q⌋ then ⌊q⌋ else ⌊q⌋ + 1

/-- Python `round(x, 3)`. -/
def roundTo3 (q : ℚ) : ℚ := (roundHalfEven (q * 1000) : ℚ) / 1000

/-- `_kwh_to_mw` of `parsers/NED.py`: energy in kWh over a 15-minute slot to
average power in MW, `round((kwh / 1000) * 4, 3)`. -/
def _kwh_to_mw (kwh : ℚ) : ℚ := roundTo3 (kwh / 1000 * 4)

/-- Split a character list on each `/` (Python `str.split("/")`). -/
def splitOnSlash : List Char → List (List Char)
  | [] => [[]]
  | '/' :: rest => [] :: splitOnSlash rest
  | c :: rest =>
    match splitOnSlash rest with
    | [] => [[c]]
    | s :: ss => (c :: s) :: ss

/-- Python `int` on a digit string; `none` when the string is empty or holds
a non-digit (where Python would raise, which no input of interest does). -/
def parseDigits (cs : List Char) : Option ℕ :=
  if cs = [] then none
  else
    cs.foldl
      (fun acc c =>
        match acc with
        | none => none
        | some n => if c.isDigit then some (n * 10 + (c.toNat - 48)) else none)
      (some 0)

/-- `int(data["type"].split("/")[-1])` of `format_data`. -/
def cleanType (s : String) : Option ℕ :=
  match (splitOnSlash s.data).getLast? with
  | none => none
  | some cs => parseDigits cs

/-- Total wrapper around `ProductionMix.add_value` for modes drawn from
`TYPE_MAPPING`, where the unknown-mode error is unreachable (Python would
raise `AttributeError` there). -/
def addValueTotal (m : ProductionMix) (mode : String) (amount : Option ℚ) :
    ProductionMix :=
  match m.add_value mode amount false with
  | .ok m2 => m2
  | .error _ => m

/-- The per-timestamp-group body of `format_data`: accumulate each mapped
record into the mix via `add_value`, collect a warning for each record whose
type code is outside `TYPE_MAPPING` (such a record contributes nothing). -/
def processGroup (rs : List NedRecord) : ProductionMix × List String :=
  rs.foldl
    (fun acc r =>
      match cleanType r.type with
      | some code =>
        match TYPE_MAPPING code with
        | some mode =>
          (addValueTotal acc.1 mode (some (_kwh_to_mw r.volume)), acc.2)
        | none => (acc.1, acc.2 ++ ["Unknown type: " ++ toString code])
      | none => (acc.1, acc.2 ++ ["Unknown type"]))
    (ProductionMix.empty, [])

/-- The per-timestamp step of `format_data` of `parsers/NED.py`: build the
group's production mix and append one event for zone `NL` with source
`ned.nl`, tagged forecasted or measured; the second component collects the
logged warnings and the logged per-event validation errors (events whose
construction fails are dropped, per the `append` path). -/
def formatStep (json : List NedRecord) (forecast : Bool) (now : ℤ)
    (acc : List ProductionBreakdown × List String) (t : ℤ) :
    List ProductionBreakdown × List String :=
  let group := json.filter (fun r => decide (r.validfrom = t))
  let pg := processGroup group
  match ProductionBreakdown.mk? now "NL" ⟨t, 0, true⟩ (some pg.1) none
      "ned.nl" (if forecast then .forecasted else .measured) with
  | .ok e => (acc.1 ++ [e], acc.2 ++ pg.2)
  | .error msg => (acc.1, acc.2 ++ pg.2 ++ [msg])

/-- `format_data` of `parsers/NED.py`: group the upstream records by their
`validfrom` timestamp (ascending, as pandas `groupby` sorts its keys) and
run `formatStep` once per distinct timestamp. -/
def format_data (json : List NedRecord) (forecast : Bool) (now : ℤ) :
    List ProductionBreakdown × List String :=
  let keys := ((json.map NedRecord.validfrom).dedup).insertionSort (· ≤ ·)
  keys.foldl (formatStep json forecast now) ([], [])

/-- `fetch_production` of `parsers/NED.py`, with the upstream responses
(the combined pages returned by `call_api`) passed in explicitly; the
`zone_key` parameter is kept with the source's signature. -/
def fetch_production (zone_key : String) (json : List NedRecord) (now : ℤ) :
    List ProductionBreakdown :=
  (format_data json false now).1

/-- `fetch_production_forecast` of `parsers/NED.py`. -/
def fetch_production_forecast (zone_key : String) (json : List NedRecord)
    (now : ℤ) : List ProductionBreakdown :=
  (format_data json true now).1

/-- The pagination loop of `call_api` of `parsers/NED.py`, one application
per loop iteration: fetch page `p`, append it, and stop when that page was
empty or the incremented page number exceeds 20.  The second component
counts the requests performed.  The fuel argument only bounds the recursion;
from the top-level entry (`p = 1`, fuel 20) it never runs out, because the
page-number cap fires at `p = 20` first. -/
def call_api_aux {α : Type} [DecidableEq α] (pages : ℕ → List α) :
    ℕ → ℕ → List α × ℕ
  | _, 0 => ([], 0)
  | p, fuel + 1 =>
    let page := pages p
    if page = [] ∨ p + 1 > 20 then (page, 1)
    else
      let r := call_api_aux pages (p + 1) fuel
      (page ++ r.1, r.2 + 1)

/-- `call_api` of `parsers/NED.py` over an abstract upstream: `pages n` is
the item list the API returns for page `n`. -/
def call_api {α : Type} [DecidableEq α] (pages : ℕ → List α) :
    List α × ℕ :=
  call_api_aux pages 1 20

/-- The supported interconnectors of `parsers/AT.py` (the keys of its
`EXCHANGES` table). -/
def EXCHANGE_KEYS : List String :=
  ["AT->CH", "AT->CZ", "AT->DE", "AT->IT", "AT->HU", "AT->SI"]

/-- One row of the Austrian day file after timestamp synthesis and numeric
parsing: the slot instant and the six raw `<CC>>AT Leistung [MW]` columns. -/
structure ATRow where
  dt : ℤ
  cz : ℚ
  hu : ℚ
  si : ℚ
  it : ℚ
  ch : ℚ
  de : ℚ
deriving DecidableEq

/-- The `EXCHANGES` lambda table of `parsers/AT.py`: each raw column holds
flow toward AT, so the value is negated for the `AT->X` direction. -/
def exchangeFlow (key : String) (r : ATRow) : ℚ :=
  if key = "AT->CH" then -1 * r.ch
  else if key = "AT->CZ" then -1 * r.cz
  else if key = "AT->DE" then -1 * r.de
  else if key = "AT->IT" then -1 * r.it
  else if key = "AT->HU" then -1 * r.hu
  else if key = "AT->SI" then -1 * r.si
  else 0

/-- One output record of `fetch_exchange` of `parsers/AT.py`. -/
structure ATRecord where
  sortedZoneKeys : String
  datetime : ℤ
  netFlow : ℚ
  source : String
deriving DecidableEq

/-- Python `"->".join(sorted([zone_key1, zone_key2]))`. -/
def sortedPair (z1 z2 : String) : String :=
  if strLtB z2 z1 then z2 ++ "->" ++ z1 else z1 ++ "->" ++ z2

/-- `fetch_exchange` of `parsers/AT.py` over an abstract upstream: the key
is the alphabetically sorted pair; an unsupported pair is rejected before
the network is consulted, which the model renders by quantifying over the
upstream behavior — `none` stands for an unreachable or failing network,
`some rows` for the parsed, NaN-free rows of the day file. -/
def fetch_exchange (upstream : Option (List ATRow))
    (zone_key1 zone_key2 : String) : Except String (List ATRecord) :=
  let exchange := sortedPair zone_key1 zone_key2
  if exchange ∉ EXCHANGE_KEYS then
    .error ("The requested exchange " ++ exchange ++
      " is not supported by the AT parser")
  else
    match upstream with
    | none => .error "network error"
    | some rows =>
      .ok (rows.map (fun r =>
        ⟨exchange, r.dt, exchangeFlow exchange r, "transparency.apg.at"⟩))

theorem sortedPair_comm (z1 z2 : String) : sortedPair z1 z2 = sortedPair z2 z1 := by
  unfold sortedPair
  by_cases h1 : strLtB z2 z1 = true
  · have h2 : strLtB z1 z2 = false := by
      cases z1 with
      | mk l1 => cases z2 with
        | mk l2 => exact lexLt_asymm l2 l1 h1
    simp [h1, h2]
  · by_cases h2 : strLtB z1 z2 = true
    · simp [h1, h2]
    · have hq : z1 = z2 :=
        strLtB_eq_of_not_lt z1 z2 (Bool.eq_false_iff.mpr h2)
          (Bool.eq_false_iff.mpr h1)
      subst hq
      rfl

/-- C7: for every requested pair of zone keys whose alphabetically sorted
`A->B` form is not one of the six supported Austrian interconnectors,
`fetch_exchange` fails with the invalid-input error for every possible
upstream behavior — including an unreachable network — i.e. before any
network request. -/
theorem fetch_exchange_unsupported_pair (upstream : Option (List ATRow))
    (z1 z2 : String) (h : sortedPair z1 z2 ∉ EXCHANGE_KEYS) :
    fetch_exchange upstream z1 z2 =
      .error ("The requested exchange " ++ sortedPair z1 z2 ++
        " is not supported by the AT parser") := by
  simp [fetch_exchange, h]

theorem fetch_exchange_unsupported_pair_witness :
    sortedPair "AT" "FR" ∉ EXCHANGE_KEYS ∧
    fetch_exchange none "AT" "FR" =
      .error "The requested exchange AT->FR is not supported by the AT parser" ∧
    fetch_exchange (some []) "FR" "AT" =
      .error "The requested exchange AT->FR is not supported by the AT parser" :=
  ⟨by decide,
   fetch_exchange_unsupported_pair none "AT" "FR" (by decide),
   fetch_exchange_unsupported_pair (some []) "FR" "AT" (by decide)⟩

/-- C10: `fetch_exchange` is symmetric in its two zone-key arguments — for
a fixed upstream it returns identical record sequences either way, because
the exchange identifier, the selected raw column and the sign convention
depend only on the alphabetically sorted pair. -/
theorem fetch_exchange_symmetric (upstream : Option (List ATRow))
    (z1 z2 : String) :
    fetch_exchange upstream z1 z2 = fetch_exchange upstream z2 z1 := by
  unfold fetch_exchange
  rw [sortedPair_comm]

theorem call_api_aux_requests_le {α : Type} [DecidableEq α]
    (pages : ℕ → List α) : ∀ fuel p, (call_api_aux pages p fuel).2 ≤ fuel := by
  intro fuel
  induction fuel with
  | zero => intro p; simp [call_api_aux]
  | succ fuel ih =>
    intro p
    simp only [call_api_aux]
    by_cases h : pages p = [] ∨ p + 1 > 20
    · rw [if_pos h]; omega
    · rw [if_neg h]
      have := ih (p + 1)
      simp only []
      omega

theorem call_api_aux_items_le {α : Type} [DecidableEq α]
    (pages : ℕ → List α) (hb : ∀ n, (pages n).length ≤ 3500) :
    ∀ fuel p, (call_api_aux pages p fuel).1.length ≤ 3500 * fuel := by
  intro fuel
  induction fuel with
  | zero => intro p; simp [call_api_aux]
  | succ fuel ih =>
    intro p
    simp only [call_api_aux]
    by_cases h : pages p = [] ∨ p + 1 > 20
    · rw [if_pos h]
      have := hb p
      calc (pages p).length ≤ 3500 := hb p
        _ ≤ 3500 * (fuel + 1) := by nlinarith
    · rw [if_neg h]
      simp only [List.length_append]
      have h1 := ih (p + 1)
      have h2 := hb p
      calc (pages p).length + (call_api_aux pages (p + 1) fuel).1.length
          ≤ 3500 + 3500 * fuel := by omega
        _ = 3500 * (fuel + 1) := by ring

theorem call_api_aux_all_nonempty {α : Type} [DecidableEq α]
    (pages : ℕ → List α) :
    ∀ fuel p, (∀ j, p ≤ j → j ≤ 20 → pages j ≠ []) → p + fuel = 21 →
      (call_api_aux pages p fuel).2 = fuel := by
  intro fuel
  induction fuel with
  | zero => intro p _ _; simp [call_api_aux]
  | succ fuel ih =>
    intro p hne hp
    have hple : p ≤ 20 := by omega
    have hpe : pages p ≠ [] := hne p le_rfl hple
    simp only [call_api_aux]
    by_cases hcap : p + 1 > 20
    · have hf : fuel = 0 := by omega
      rw [if_pos (Or.inr hcap), hf]
    · rw [if_neg (by push_neg; exact ⟨hpe, by omega⟩)]
      have := ih (p + 1) (fun j hj1 hj2 => hne j (by omega) hj2) (by omega)
      simp only []
      omega

theorem call_api_aux_first_empty {α : Type} [DecidableEq α]
    (pages : ℕ → List α) :
    ∀ fuel p k, p ≤ k → k ≤ 20 → k < p + fuel → pages k = [] →
      (∀ j, p ≤ j → j < k → pages j ≠ []) →
      (call_api_aux pages p fuel).2 = k - p + 1 := by
  intro fuel
  induction fuel with
  | zero => intro p k h1 _ h3 _ _; omega
  | succ fuel ih =>
    intro p k hpk hk20 hlt hke hnon
    by_cases hpe : p = k
    · subst hpe
      simp only [call_api_aux]
      rw [if_pos (Or.inl hke)]
      omega
    · have hplt : p < k := lt_of_le_of_ne hpk hpe
      have hpne : pages p ≠ [] := hnon p le_rfl hplt
      have hcap : ¬ p + 1 > 20 := by omega
      simp only [call_api_aux]
      rw [if_neg (by push_neg; exact ⟨hpne, by omega⟩)]
      have := ih (p + 1) k (by omega) hk20 (by omega) hke
        (fun j hj1 hj2 => hnon j (by omega) hj2)
      simp only []
      omega

/-- C8: `call_api` terminates for every sequence of upstream responses; it
requests pages starting from page 1, stops as soon as a page comes back
empty (making exactly as many requests as the index of the first empty page)
or after the 20th page, and — when the upstream honors the 3,500
items-per-page limit — fetches at most 70,000 items in total. -/
theorem call_api_pagination {α : Type} [DecidableEq α] (pages : ℕ → List α) :
    (call_api pages).2 ≤ 20 ∧
    (pages 1 = [] → call_api pages = ([], 1)) ∧
    ((∀ n, (pages n).length ≤ 3500) → (call_api pages).1.length ≤ 70000) ∧
    ((∀ n, 1 ≤ n → n ≤ 20 → pages n ≠ []) → (call_api pages).2 = 20) ∧
    (∀ k, 1 ≤ k → k ≤ 20 → pages k = [] →
      (∀ j, 1 ≤ j → j < k → pages j ≠ []) → (call_api pages).2 = k) := by
  refine ⟨?_, ?_, ?_, ?_, ?_⟩
  · exact call_api_aux_requests_le pages 20 1
  · intro h
    simp only [call_api, call_api_aux]
    rw [if_pos (Or.inl h), h]
  · intro hb
    have := call_api_aux_items_le pages hb 20 1
    simpa [call_api] using this
  · intro hne
    have := call_api_aux_all_nonempty pages 20 1
      (fun j hj1 hj2 => hne j hj1 hj2) (by omega)
    simpa [call_api] using this
  · intro k hk1 hk20 hke hnon
    have := call_api_aux_first_empty pages 20 1 k hk1 hk20 (by omega) hke
      (fun j hj1 hj2 => hnon j hj1 hj2)
    simp only [call_api] at *
    omega

theorem call_api_pagination_witness :
    (call_api (fun _ => List.replicate 3500 (0 : ℕ))).1.length ≤ 70000 ∧
    call_api (fun _ => ([] : List ℕ)) = ([], 1) ∧
    (call_api (fun _ => List.replicate 3500 (0 : ℕ))).2 = 20 :=
  ⟨(call_api_pagination _).2.2.1
     (fun _ => le_of_eq (List.length_replicate 3500 0)),
   (call_api_pagination _).2.1 rfl,
   (call_api_pagination _).2.2.2.1
     (fun n _ _ => by
       intro hc
       have := congrArg List.length hc
       rw [List.length_replicate] at this
       simp at this)⟩

theorem validateExchangeKey_false_of_not_lt (k : String) (a b : List Char)
    (hsplit : splitOnArrow k.data = [a, b]) (hlt : lexLt a b = false) :
    validateExchangeKey k = false := by
  unfold validateExchangeKey
  rw [hsplit]
  simp [hlt]

theorem validateExchangeKey_false_of_unknown (k : String) (a b : List Char)
    (hsplit : splitOnArrow k.data = [a, b])
    (hu : a = "UNKNOWN".data ∨ b = "UNKNOWN".data) :
    validateExchangeKey k = false := by
  unfold validateExchangeKey
  rw [hsplit]
  rcases hu with h | h <;> simp [h]

theorem validateExchangeKey_false_of_no_arrow (k : String) (c : List Char)
    (hsplit : splitOnArrow k.data = [c]) :
    validateExchangeKey k = false := by
  unfold validateExchangeKey
  rw [hsplit]

theorem Exchange.mk?_error_of_invalid_key (now : ℤ) (k : String)
    (d : Datetime) (f : Option ℚ) (s : String) (st : EventSourceType)
    (hval : validateExchangeKey k = false) :
    Exchange.mk? now k d f s st =
      .error ("Not a valid exchange key: " ++ k) := by
  simp [Exchange.mk?, hval]

/-- C5: an Exchange construction whose zone key has its two sides in
reversed or identical (non-strictly-alphabetical) order, or has a side equal
to the literal `UNKNOWN`, or is not exchange-shaped at all (its split on
`->` does not yield two parts), fails validation with an invalid-input
error, regardless of the values of all other fields. -/
theorem exchange_invalid_key_rejected :
    (∀ (now : ℤ) (k : String) (a b : List Char) (d : Datetime) (f : Option ℚ)
        (s : String) (st : EventSourceType),
      splitOnArrow k.data = [a, b] → lexLt a b = false →
      Exchange.mk? now k d f s st =
        .error ("Not a valid exchange key: " ++ k)) ∧
    (∀ (now : ℤ) (k : String) (a b : List Char) (d : Datetime) (f : Option ℚ)
        (s : String) (st : EventSourceType),
      splitOnArrow k.data = [a, b] →
      (a = "UNKNOWN".data ∨ b = "UNKNOWN".data) →
      Exchange.mk? now k d f s st =
        .error ("Not a valid exchange key: " ++ k)) ∧
    (∀ (now : ℤ) (k : String) (c : List Char) (d : Datetime) (f : Option ℚ)
        (s : String) (st : EventSourceType),
      splitOnArrow k.data = [c] →
      Exchange.mk? now k d f s st =
        .error ("Not a valid exchange key: " ++ k)) := by
  refine ⟨?_, ?_, ?_⟩
  · intro now k a b d f s st hsplit hlt
    exact Exchange.mk?_error_of_invalid_key now k d f s st
      (validateExchangeKey_false_of_not_lt k a b hsplit hlt)
  · intro now k a b d f s st hsplit hu
    exact Exchange.mk?_error_of_invalid_key now k d f s st
      (validateExchangeKey_false_of_unknown k a b hsplit hu)
  · intro now k c d f s st hsplit
    exact Exchange.mk?_error_of_invalid_key now k d f s st
      (validateExchangeKey_false_of_no_arrow k c hsplit)

theorem exchange_invalid_key_rejected_witness :
    Exchange.mk? 0 "DE->AT" ⟨0, 0, true⟩ (some 1) "trust.me" .measured =
      .error "Not a valid exchange key: DE->AT" ∧
    Exchange.mk? 0 "AT->AT" ⟨0, 0, true⟩ (some 1) "trust.me" .measured =
      .error "Not a valid exchange key: AT->AT" ∧
    Exchange.mk? 0 "UNKNOWN->ZZ" ⟨0, 0, true⟩ (some 1) "trust.me" .measured =
      .error "Not a valid exchange key: UNKNOWN->ZZ" ∧
    Exchange.mk? 0 "AT-DE" ⟨0, 0, true⟩ (some 1) "trust.me" .measured =
      .error "Not a valid exchange key: AT-DE" :=
  ⟨exchange_invalid_key_rejected.1 0 "DE->AT" "DE".data "AT".data
     ⟨0, 0, true⟩ (some 1) "trust.me" .measured (by decide) (by decide),
   exchange_invalid_key_rejected.1 0 "AT->AT" "AT".data "AT".data
     ⟨0, 0, true⟩ (some 1) "trust.me" .measured (by decide) (by decide),
   exchange_invalid_key_rejected.2.1 0 "UNKNOWN->ZZ" "UNKNOWN".data "ZZ".data
     ⟨0, 0, true⟩ (some 1) "trust.me" .measured (by decide) (by decide),
   exchange_invalid_key_rejected.2.2 0 "AT-DE" "AT-DE".data
     ⟨0, 0, true⟩ (some 1) "trust.me" .measured (by decide)⟩

/-- C4 (counterexample): the claim says constructing any event with the
default measured source type and an instant strictly after now fails — but a
measured `Price` dated one day after `now = 0` is accepted (prices are
published day-ahead; the constructor performs no future check), as the
in-repo test `test_prices_can_be_in_future` pins. -/
theorem price_future_accepted_counterexample :
    Price.mk? "DE" ⟨86400, 0, true⟩ (some 1) "EUR" "trust.me"
        EventSourceType.measured =
      .ok ⟨"DE", ⟨86400, 0, true⟩, 1, "EUR", "trust.me",
           EventSourceType.measured⟩ ∧
    (0 : ℤ) < 86400 := by
  constructor
  · rfl
  · decide

/-- C4 (amended): at a fixed current instant `now`, every event kind except
`Price` rejects a measured, timezone-aware datetime whose underlying instant
is strictly after `now`; the identical datetime is accepted when the source
type is forecasted; acceptance is decided by the underlying instant and not
by the local wall value, so an instant not after `now` is accepted even when
its local wall reading (instant plus offset) is after `now`, and the result
is oblivious to the offset altogether; `Price` construction succeeds with no
reference to any current instant. -/
theorem future_datetime_policy_amended :
    (∀ (now : ℤ) (zk : String) (d : Datetime) (f : Option ℚ) (s : String),
      d.aware = true → now < d.utcSeconds →
      ∃ msg, Exchange.mk? now zk d f s .measured = .error msg) ∧
    (∀ (now : ℤ) (zk : String) (d : Datetime) (c : Option ℚ) (s : String),
      d.aware = true → now < d.utcSeconds →
      ∃ msg, TotalConsumption.mk? now zk d c s .measured = .error msg) ∧
    (∀ (now : ℤ) (zk : String) (d : Datetime) (v : Option ℚ) (s : String),
      d.aware = true → now < d.utcSeconds →
      ∃ msg, TotalProduction.mk? now zk d v s .measured = .error msg) ∧
    (∀ (now : ℤ) (zk : String) (d : Datetime) (p : Option ProductionMix)
        (sg : Option StorageMix) (s : String),
      d.aware = true → now < d.utcSeconds →
      ∃ msg, ProductionBreakdown.mk? now zk d p sg s .measured = .error msg) ∧
    (∀ (now : ℤ) (zk : String) (d : Datetime) (p : ProductionMix) (s : String),
      validateBareKey zk = true → d.aware = true → mixHasData p = true →
      ProductionBreakdown.mk? now zk d (some p) none s .forecasted =
        .ok ⟨zk, d, some p, none, s, .forecasted⟩) ∧
    (∀ (now : ℤ) (zk : String) (d : Datetime) (p : ProductionMix) (s : String),
      validateBareKey zk = true → d.aware = true → mixHasData p = true →
      d.utcSeconds ≤ now → now < d.utcSeconds + 60 * d.offsetMinutes →
      ProductionBreakdown.mk? now zk d (some p) none s .measured =
        .ok ⟨zk, d, some p, none, s, .measured⟩) ∧
    (∀ (now : ℤ) (zk : String) (d1 d2 : Datetime)
        (p : Option ProductionMix) (sg : Option StorageMix) (s : String)
        (st : EventSourceType),
      d1.utcSeconds = d2.utcSeconds → d1.aware = d2.aware →
      (ProductionBreakdown.mk? now zk d1 p sg s st).isOk =
        (ProductionBreakdown.mk? now zk d2 p sg s st).isOk) ∧
    (∀ (zk : String) (d : Datetime) (pr : ℚ) (cur s : String)
        (st : EventSourceType),
      validateBareKey zk = true → d.aware = true → cur ∈ KNOWN_CURRENCIES →
      Price.mk? zk d (some pr) cur s st =
        .ok ⟨zk, d, pr, cur, s, st⟩) := by
  have hfut : ∀ now : ℤ, ∀ d : Datetime, now < d.utcSeconds →
      (EventSourceType.measured ≠ EventSourceType.forecasted ∧
        now < d.utcSeconds) := fun now d h => ⟨by simp, h⟩
  refine ⟨?_, ?_, ?_, ?_, ?_, ?_, ?_, ?_⟩
  · intro now zk d f s hw hf
    by_cases hv : validateExchangeKey zk = true
    · exact ⟨"Date is in the future",
        by simp [Exchange.mk?, hv, hw, hfut now d hf]⟩
    · exact ⟨"Not a valid exchange key: " ++ zk, by simp [Exchange.mk?, hv]⟩
  · intro now zk d c s hw hf
    by_cases hv : validateBareKey zk = true
    · exact ⟨"Date is in the future",
        by simp [TotalConsumption.mk?, hv, hw, hfut now d hf]⟩
    · exact ⟨"Not a valid zone key: " ++ zk,
        by simp [TotalConsumption.mk?, hv]⟩
  · intro now zk d v s hw hf
    by_cases hv : validateBareKey zk = true
    · exact ⟨"Date is in the future",
        by simp [TotalProduction.mk?, hv, hw, hfut now d hf]⟩
    · exact ⟨"Not a valid zone key: " ++ zk,
        by simp [TotalProduction.mk?, hv]⟩
  · intro now zk d p sg s hw hf
    by_cases hv : validateBareKey zk = true
    · exact ⟨"Date is in the future",
        by simp [ProductionBreakdown.mk?, hv, hw, hfut now d hf]⟩
    · exact ⟨"Not a valid zone key: " ++ zk,
        by simp [ProductionBreakdown.mk?, hv]⟩
  · intro now zk d p s hv hw hd
    have hnf : ¬ (EventSourceType.forecasted ≠ EventSourceType.forecasted ∧
        now < d.utcSeconds) := fun hc => hc.1 rfl
    simp [ProductionBreakdown.mk?, hv, hw, hnf, hd]
  · intro now zk d p s hv hw hd hle _
    have hnf : ¬ (EventSourceType.measured ≠ EventSourceType.forecasted ∧
        now < d.utcSeconds) := fun hc => absurd hc.2 (not_lt.mpr hle)
    simp [ProductionBreakdown.mk?, hv, hw, hnf, hd, hle]
  · intro now zk d1 d2 p sg s st h1 h2
    simp only [ProductionBreakdown.mk?, h1, h2]
    by_cases hv : validateBareKey zk = true
    · by_cases hw : d2.aware = true
      · by_cases hf : st ≠ EventSourceType.forecasted ∧ now < d2.utcSeconds
        · simp [hv, hw, hf]
        · cases p with
          | none =>
            cases sg with
            | none => simp [hv, hw, hf]
            | some s1 => by_cases hs : storageHasData s1 = true <;>
                simp [hv, hw, hf, hs, Except.isOk, Except.toBool]
          | some p1 =>
            cases sg with
            | none => by_cases hp : mixHasData p1 = true <;>
                simp [hv, hw, hf, hp, Except.isOk, Except.toBool]
            | some s1 =>
              by_cases hp : mixHasData p1 = true <;>
                by_cases hs : storageHasData s1 = true <;>
                simp [hv, hw, hf, hp, hs, Except.isOk, Except.toBool]
      · simp [hv, hw]
    · simp [hv]
  · intro zk d pr cur s st hv hw hc
    simp [Price.mk?, hv, hw, hc]

theorem future_datetime_policy_amended_witness :
    (∃ msg, Exchange.mk? 0 "AT->DE" ⟨10, 0, true⟩ (some 1) "trust.me"
        .measured = .error msg) ∧
    (∃ msg, ProductionBreakdown.mk? 0 "DE" ⟨10, 0, true⟩
        (some ⟨[("wind", some 10)], []⟩) none "trust.me" .measured =
        .error msg) ∧
    ProductionBreakdown.mk? 0 "DE" ⟨10, 0, true⟩
        (some ⟨[("wind", some 10)], []⟩) none "trust.me" .forecasted =
      .ok ⟨"DE", ⟨10, 0, true⟩, some ⟨[("wind", some 10)], []⟩, none,
           "trust.me", .forecasted⟩ ∧
    ProductionBreakdown.mk? 0 "DE" ⟨-14400, 540, true⟩
        (some ⟨[("wind", some 10)], []⟩) none "trust.me" .measured =
      .ok ⟨"DE", ⟨-14400, 540, true⟩, some ⟨[("wind", some 10)], []⟩, none,
           "trust.me", .measured⟩ :=
  ⟨future_datetime_policy_amended.1 0 "AT->DE" ⟨10, 0, true⟩ (some 1)
     "trust.me" rfl (by decide),
   future_datetime_policy_amended.2.2.2.1 0 "DE" ⟨10, 0, true⟩
     (some ⟨[("wind", some 10)], []⟩) none "trust.me" rfl (by decide),
   future_datetime_policy_amended.2.2.2.2.1 0 "DE" ⟨10, 0, true⟩
     ⟨[("wind", some 10)], []⟩ "trust.me" (by decide) rfl (by decide),
   future_datetime_policy_amended.2.2.2.2.2.1 0 "DE" ⟨-14400, 540, true⟩
     ⟨[("wind", some 10)], []⟩ "trust.me" (by decide) rfl (by decide)
     (by decide) (by decide)⟩

/-- C1 (counterexample): the claim says the mode is clamped and marked
corrected exactly when the resulting accumulated total is negative.  But
starting from `wind = 10`, `add_value("wind", -5)` keeps `10` (not the
accumulated total `5`) and marks `wind` corrected although `10 + (-5)` is
not negative — the clamp applies to the negative amount itself, as the
in-repo test `test_production_with_negative_value` pins. -/
theorem add_value_claim_counterexample :
    (ProductionMix.empty.add_value "wind" (some 10) false).bind
        (fun m => m.add_value "wind" (some (-5)) false) =
      .ok ⟨[("wind", some 10)], ["wind"]⟩ ∧
    ¬ ((10 : ℚ) + (-5) < 0) ∧ (10 : ℚ) + (-5) ≠ 10 := by
  refine ⟨?_, by norm_num, by norm_num⟩
  have hget0 : ProductionMix.empty.get "wind" = none := rfl
  have h1 := add_value_nonneg ProductionMix.empty "wind" 10 false (by decide)
    (by norm_num) (by rw [hget0]; norm_num)
  rw [hget0] at h1
  simp only [Option.getD_none, add_zero] at h1
  have h2 := add_value_neg_default ⟨[("wind", some 10)], []⟩ "wind" (-5)
    (by decide) (by norm_num) (by norm_num [ProductionMix.get, lookupEntry])
  rw [h1]
  simp only [Except.bind]
  have hgg : (ProductionMix.mk [("wind", some 10)] []).get "wind" = some 10 :=
    rfl
  rw [hgg] at h2
  exact h2

/-- C1 (amended): `add_value(mode, a)` clamps the amount itself: a
non-negative amount accumulates onto the current value (treating an absent
current value as zero) and leaves the corrected set unchanged; a negative
amount marks the mode corrected and is replaced by absent (the stored value
stays unchanged) or, with `correctNegativeWithZero`, by `0` (the stored
value becomes the prior value, or `0` when there was none); an absent or
NaN amount leaves value and corrected set unchanged.  In particular, from an
empty mix, `add_value("wind", -10)` yields absent with `wind` marked
corrected, and with `correctNegativeWithZero` yields `0`, still marked. -/
theorem add_value_amended :
    (∀ (m : ProductionMix) (mode : String) (a : ℚ) (czero : Bool),
      mode ∈ PRODUCTION_MODES → 0 ≤ a → 0 ≤ (m.get mode).getD 0 →
      ∃ m2, m.add_value mode (some a) czero = .ok m2 ∧
        m2.get mode = some (a + (m.get mode).getD 0) ∧
        m2.corrected = m.corrected) ∧
    (∀ (m : ProductionMix) (mode : String) (a : ℚ),
      mode ∈ PRODUCTION_MODES → a < 0 → 0 ≤ (m.get mode).getD 0 →
      ∃ m2, m.add_value mode (some a) false = .ok m2 ∧
        m2.get mode = m.get mode ∧
        m2.corrected = insertMode m.corrected mode) ∧
    (∀ (m : ProductionMix) (mode : String) (a : ℚ),
      mode ∈ PRODUCTION_MODES → a < 0 → 0 ≤ (m.get mode).getD 0 →
      ∃ m2, m.add_value mode (some a) true = .ok m2 ∧
        m2.get mode = some ((m.get mode).getD 0) ∧
        m2.corrected = insertMode m.corrected mode) ∧
    (∀ (m : ProductionMix) (mode : String) (czero : Bool),
      mode ∈ PRODUCTION_MODES → 0 ≤ (m.get mode).getD 0 →
      ∃ m2, m.add_value mode none czero = .ok m2 ∧
        m2.get mode = m.get mode ∧ m2.corrected = m.corrected) ∧
    (∃ m2, ProductionMix.empty.add_value "wind" (some (-10)) false = .ok m2 ∧
      m2.get "wind" = none ∧ m2.corrected = ["wind"]) ∧
    (∃ m2, ProductionMix.empty.add_value "wind" (some (-10)) true = .ok m2 ∧
      m2.get "wind" = some 0 ∧ m2.corrected = ["wind"]) := by
  refine ⟨?_, ?_, ?_, ?_, ?_, ?_⟩
  · intro m mode a czero hmode ha hprior
    exact ⟨_, add_value_nonneg m mode a czero hmode ha hprior,
      ProductionMix.get_mk_set_self _ _ _ _, rfl⟩
  · intro m mode a hmode ha hprior
    exact ⟨_, add_value_neg_default m mode a hmode ha hprior,
      ProductionMix.get_mk_set_self _ _ _ _, rfl⟩
  · intro m mode a hmode ha hprior
    exact ⟨_, add_value_neg_zero m mode a hmode ha hprior,
      ProductionMix.get_mk_set_self _ _ _ _, rfl⟩
  · intro m mode czero hmode hprior
    exact ⟨_, add_value_absent m mode czero hmode hprior,
      ProductionMix.get_mk_set_self _ _ _ _, rfl⟩
  · refine ⟨_, add_value_neg_default ProductionMix.empty "wind" (-10)
      (by decide) (by norm_num) (by norm_num [ProductionMix.empty,
        ProductionMix.get, lookupEntry]), ?_, ?_⟩
    · rw [ProductionMix.get_mk_set_self]; rfl
    · rfl
  · refine ⟨_, add_value_neg_zero ProductionMix.empty "wind" (-10)
      (by decide) (by norm_num) (by norm_num [ProductionMix.empty,
        ProductionMix.get, lookupEntry]), ?_, ?_⟩
    · rw [ProductionMix.get_mk_set_self]; rfl
    · rfl

theorem add_value_amended_witness :
    (∃ m2, ProductionMix.empty.add_value "wind" (some 10) false = .ok m2 ∧
      m2.get "wind" = some (10 + (ProductionMix.empty.get "wind").getD 0) ∧
      m2.corrected = ProductionMix.empty.corrected) ∧
    (∃ m2, (ProductionMix.empty.add_value "wind" none false).isOk = true ∧
      ProductionMix.empty.add_value "wind" none false = .ok m2 ∧
      m2.get "wind" = ProductionMix.empty.get "wind") := by
  constructor
  · exact add_value_amended.1 ProductionMix.empty "wind" 10 false (by decide)
      (by norm_num) (by norm_num [ProductionMix.empty, ProductionMix.get,
        lookupEntry])
  · obtain ⟨m2, h1, h2, _⟩ := add_value_amended.2.2.2.1 ProductionMix.empty
      "wind" false (by decide) (by norm_num [ProductionMix.empty,
        ProductionMix.get, lookupEntry])
    exact ⟨m2, by rw [h1]; rfl, h1, h2⟩

/-- C3: merging two ExchangeLists that each contain exactly one event for
the same zone pair and timestamp with net flows `a` and `b` yields exactly
one merged event at that timestamp whose net flow is `a + b` (possibly
negative), with the unique sources joined; merging in either order yields
the same numeric result. -/
theorem merge_exchanges_same_timestamp (z : String) (d : Datetime)
    (a b : ℚ) (s1 s2 : String) (st : EventSourceType) :
    merge_exchanges [[⟨z, d, a, s1, st⟩], [⟨z, d, b, s2, st⟩]] =
      [⟨z, d, a + b, joinCommaSpace ([s1, s2].dedup), st⟩] ∧
    (merge_exchanges [[⟨z, d, b, s2, st⟩], [⟨z, d, a, s1, st⟩]]).map
        Exchange.netFlow =
      (merge_exchanges [[⟨z, d, a, s1, st⟩], [⟨z, d, b, s2, st⟩]]).map
        Exchange.netFlow := by
  constructor
  · simp [merge_exchanges, List.dedup_cons_of_mem, List.insertionSort,
      List.orderedInsert, List.filterMap, List.filter, add_comm]
  · simp [merge_exchanges, List.dedup_cons_of_mem, List.insertionSort,
      List.orderedInsert, List.filterMap, List.filter, add_comm]

theorem roundHalfEven_nonneg (q : ℚ) (h : 0 ≤ q) : 0 ≤ roundHalfEven q := by
  unfold roundHalfEven
  have hf : (0 : ℤ) ≤ ⌊q⌋ := Int.floor_nonneg.mpr h
  split_ifs <;> omega

theorem _kwh_to_mw_nonneg (kwh : ℚ) (h : 0 ≤ kwh) : 0 ≤ _kwh_to_mw kwh := by
  unfold _kwh_to_mw roundTo3
  have h1 : (0 : ℚ) ≤ kwh / 1000 * 4 * 1000 := by positivity
  have h2 := roundHalfEven_nonneg _ h1
  have h3 : (0 : ℚ) ≤ (roundHalfEven (kwh / 1000 * 4 * 1000) : ℚ) := by
    exact_mod_cast h2
  positivity

theorem addValueTotal_nonneg (m : ProductionMix) (mode : String) (a : ℚ)
    (hmode : mode ∈ PRODUCTION_MODES) (ha : 0 ≤ a)
    (hprior : 0 ≤ (m.get mode).getD 0) :
    addValueTotal m mode (some a) =
      ⟨setEntry m.entries mode (some (a + (m.get mode).getD 0)),
       m.corrected⟩ := by
  unfold addValueTotal
  rw [add_value_nonneg m mode a false hmode ha hprior]

/-- C6: in `format_data`, records with type codes 1 and 51 both accumulate
into the `wind` mode of the mix for their timestamp bucket; each record's
kWh volume is converted through `_kwh_to_mw`, with a volume of 1000 kWh
mapping to exactly 4.0 MW; and a record whose code is outside `TYPE_MAPPING`
produces a logged warning and contributes nothing to the output mix. -/
theorem NED_wind_accumulation (t now : ℤ) (v1 v2 v3 : ℚ)
    (ht : t ≤ now) (h1 : 0 ≤ v1) (h2 : 0 ≤ v2) :
    (format_data [⟨"/1", v1, t⟩, ⟨"/51", v2, t⟩, ⟨"/99", v3, t⟩]
        false now).1.map
        (fun e => (e.zoneKey, e.datetime.utcSeconds,
          getP e.production "wind")) =
      [("NL", t, some (_kwh_to_mw v1 + _kwh_to_mw v2))] ∧
    (format_data [⟨"/1", v1, t⟩, ⟨"/51", v2, t⟩, ⟨"/99", v3, t⟩]
        false now).2 = ["Unknown type: 99"] ∧
    _kwh_to_mw 1000 = 4 := by
  have hk1 : 0 ≤ _kwh_to_mw v1 := _kwh_to_mw_nonneg v1 h1
  have hk2 : 0 ≤ _kwh_to_mw v2 := _kwh_to_mw_nonneg v2 h2
  have hpg : processGroup [⟨"/1", v1, t⟩, ⟨"/51", v2, t⟩, ⟨"/99", v3, t⟩] =
      (⟨[("wind", some (_kwh_to_mw v2 + _kwh_to_mw v1))], []⟩,
       ["Unknown type: 99"]) := by
    have hs1 : addValueTotal ProductionMix.empty "wind"
        (some (_kwh_to_mw v1)) =
        ⟨[("wind", some (_kwh_to_mw v1))], []⟩ := by
      rw [addValueTotal_nonneg ProductionMix.empty "wind" _ (by decide) hk1
        (by norm_num [ProductionMix.empty, ProductionMix.get, lookupEntry])]
      simp [ProductionMix.empty, setEntry, ProductionMix.get, lookupEntry]
    have hs2 : addValueTotal ⟨[("wind", some (_kwh_to_mw v1))], []⟩ "wind"
        (some (_kwh_to_mw v2)) =
        ⟨[("wind", some (_kwh_to_mw v2 + _kwh_to_mw v1))], []⟩ := by
      have hget : (ProductionMix.mk [("wind", some (_kwh_to_mw v1))] []).get
          "wind" = some (_kwh_to_mw v1) := rfl
      rw [addValueTotal_nonneg _ "wind" _ (by decide) hk2
        (by rw [hget]; simpa using hk1)]
      rw [hget]
      simp [setEntry]
    simp only [processGroup, List.foldl]
    rw [show cleanType "/1" = some 1 from rfl,
      show cleanType "/51" = some 51 from rfl,
      show cleanType "/99" = some 99 from rfl]
    simp only [TYPE_MAPPING]
    rw [hs1, hs2]
    rw [show toString (99 : ℕ) = "99" from rfl]
    simp
  have hnlt : ¬ now < t := not_lt.mpr ht
  have hnl : validateBareKey "NL" = true := by decide
  have hmix : mixHasData
      ⟨[("wind", some (_kwh_to_mw v2 + _kwh_to_mw v1))], []⟩ = true := rfl
  have hmk : ProductionBreakdown.mk? now "NL" ⟨t, 0, true⟩
      (some ⟨[("wind", some (_kwh_to_mw v2 + _kwh_to_mw v1))], []⟩) none
      "ned.nl" EventSourceType.measured =
      .ok ⟨"NL", ⟨t, 0, true⟩,
        some ⟨[("wind", some (_kwh_to_mw v2 + _kwh_to_mw v1))], []⟩, none,
        "ned.nl", EventSourceType.measured⟩ := by
    simp [ProductionBreakdown.mk?, hnl, hnlt, hmix, mixHasData]
  have hkeys : ((([⟨"/1", v1, t⟩, ⟨"/51", v2, t⟩, ⟨"/99", v3, t⟩] :
      List NedRecord).map NedRecord.validfrom).dedup).insertionSort
      (· ≤ ·) = [t] := by
    simp only [List.map, NedRecord.validfrom]
    rw [List.dedup_cons_of_mem (by simp : t ∈ [t, t]),
      List.dedup_cons_of_mem (by simp : t ∈ [t]),
      List.dedup_cons_of_not_mem (by simp), List.dedup_nil]
    simp [List.insertionSort, List.orderedInsert]
  have hgrp : ([⟨"/1", v1, t⟩, ⟨"/51", v2, t⟩, ⟨"/99", v3, t⟩] :
      List NedRecord).filter (fun r => decide (r.validfrom = t)) =
      [⟨"/1", v1, t⟩, ⟨"/51", v2, t⟩, ⟨"/99", v3, t⟩] := by
    simp [List.filter]
  have hfd : format_data [⟨"/1", v1, t⟩, ⟨"/51", v2, t⟩, ⟨"/99", v3, t⟩]
      false now =
      ([⟨"NL", ⟨t, 0, true⟩,
         some ⟨[("wind", some (_kwh_to_mw v2 + _kwh_to_mw v1))], []⟩, none,
         "ned.nl", EventSourceType.measured⟩], ["Unknown type: 99"]) := by
    unfold format_data
    rw [hkeys]
    simp only [List.foldl, formatStep]
    rw [hgrp, hpg]
    rw [show (if (false : Bool) = true then EventSourceType.forecasted
      else EventSourceType.measured) = EventSourceType.measured from rfl]
    rw [hmk]
    simp
  refine ⟨?_, ?_, ?_⟩
  · rw [hfd]
    simp only [List.map]
    rw [show getP (some ⟨[("wind",
      some (_kwh_to_mw v2 + _kwh_to_mw v1))], []⟩) "wind" =
      some (_kwh_to_mw v2 + _kwh_to_mw v1) from rfl]
    rw [add_comm (_kwh_to_mw v2) (_kwh_to_mw v1)]
  · rw [hfd]
  · show roundTo3 (1000 / 1000 * 4) = 4
    norm_num [roundTo3, roundHalfEven]

theorem NED_wind_accumulation_witness :
    (format_data [⟨"/1", 1000, 0⟩, ⟨"/51", 2000, 0⟩, ⟨"/99", 5, 0⟩]
        false 0).1.map
        (fun e => (e.zoneKey, e.datetime.utcSeconds,
          getP e.production "wind")) =
      [("NL", 0, some (_kwh_to_mw 1000 + _kwh_to_mw 2000))] ∧
    (format_data [⟨"/1", 1000, 0⟩, ⟨"/51", 2000, 0⟩, ⟨"/99", 5, 0⟩]
        false 0).2 = ["Unknown type: 99"] :=
  ⟨(NED_wind_accumulation 0 0 1000 2000 5 (by decide) (by decide)
     (by decide)).1,
   (NED_wind_accumulation 0 0 1000 2000 5 (by decide) (by decide)
     (by decide)).2.1⟩

theorem ProductionBreakdown.mk?_ok_zoneKey (now : ℤ) (zk : String)
    (d : Datetime) (p : Option ProductionMix) (sg : Option StorageMix)
    (s : String) (st : EventSourceType) (e : ProductionBreakdown)
    (h : ProductionBreakdown.mk? now zk d p sg s st = .ok e) :
    e.zoneKey = zk := by
  cases p <;> cases sg <;> simp only [ProductionBreakdown.mk?] at h <;>
    split_ifs at h <;>
    first
      | exact Except.noConfusion h
      | (injection h with h2; subst h2; rfl)

theorem formatStep_zoneKey (json : List NedRecord) (f : Bool) (now : ℤ)
    (acc : List ProductionBreakdown × List String) (t : ℤ)
    (hacc : ∀ e ∈ acc.1, e.zoneKey = "NL") :
    ∀ e ∈ (formatStep json f now acc t).1, e.zoneKey = "NL" := by
  unfold formatStep
  cases hmk : ProductionBreakdown.mk? now "NL" ⟨t, 0, true⟩
      (some (processGroup
        (json.filter (fun r => decide (r.validfrom = t)))).1) none "ned.nl"
      (if f then .forecasted else .measured) with
  | ok e =>
    simp only [hmk]
    intro e2 he2
    rcases List.mem_append.mp he2 with h | h
    · exact hacc e2 h
    · rw [List.mem_singleton] at h
      subst h
      exact ProductionBreakdown.mk?_ok_zoneKey _ _ _ _ _ _ _ _ hmk
  | error msg =>
    simp only [hmk]
    exact hacc

theorem foldl_formatStep_zoneKey (json : List NedRecord) (f : Bool)
    (now : ℤ) :
    ∀ (keys : List ℤ) (acc : List ProductionBreakdown × List String),
      (∀ e ∈ acc.1, e.zoneKey = "NL") →
      ∀ e ∈ (keys.foldl (formatStep json f now) acc).1, e.zoneKey = "NL" := by
  intro keys
  induction keys with
  | nil => intro acc hacc; simpa [List.foldl] using hacc
  | cons hd tl ih =>
    intro acc hacc
    simp only [List.foldl]
    exact ih (formatStep json f now acc hd)
      (formatStep_zoneKey json f now acc hd hacc)

theorem format_data_zoneKey (json : List NedRecord) (f : Bool) (now : ℤ) :
    ∀ e ∈ (format_data json f now).1, e.zoneKey = "NL" := by
  unfold format_data
  exact foldl_formatStep_zoneKey json f now _ ([], []) (by simp)

/-- C9: `fetch_production` and `fetch_production_forecast` ignore their
`zone_key` parameter — for any two argument values and identical upstream
responses the outputs are identical — and every emitted record carries the
zone key `NL` regardless of the argument. -/
theorem NED_zone_key_ignored :
    (∀ (zk1 zk2 : String) (json : List NedRecord) (now : ℤ),
      fetch_production zk1 json now = fetch_production zk2 json now ∧
      fetch_production_forecast zk1 json now =
        fetch_production_forecast zk2 json now) ∧
    (∀ (zk : String) (json : List NedRecord) (now : ℤ),
      ((fetch_production zk json now).map ProductionBreakdown.zoneKey).all
          (fun z => z == "NL") = true ∧
      ((fetch_production_forecast zk json now).map
          ProductionBreakdown.zoneKey).all (fun z => z == "NL") = true) := by
  constructor
  · intro zk1 zk2 json now
    exact ⟨rfl, rfl⟩
  · intro zk json now
    constructor
    · rw [List.all_eq_true]
      intro z hz
      rw [List.mem_map] at hz
      obtain ⟨e, he, rfl⟩ := hz
      exact beq_iff_eq.mpr (format_data_zoneKey json false now e he)
    · rw [List.all_eq_true]
      intro z hz
      rw [List.mem_map] at hz
      obtain ⟨e, he, rfl⟩ := hz
      exact beq_iff_eq.mpr (format_data_zoneKey json true now e he)

theorem lookupEntry_map_modes (ms : List String) (f : String → Option ℚ)
    (mode : String) :
    lookupEntry (ms.map (fun md => (md, f md))) mode =
      if mode ∈ ms then some (f mode) else none := by
  induction ms with
  | nil => simp [lookupEntry]
  | cons hd tl ih =>
    by_cases h : hd = mode
    · subst h; simp [lookupEntry]
    · simp only [List.map, lookupEntry, if_neg h, ih]
      by_cases hm : mode ∈ tl
      · rw [if_pos hm, if_pos (List.mem_cons_of_mem _ hm)]
      · rw [if_neg hm, if_neg (by simp [Ne.symm h, hm])]

theorem lookupEntry_eq_none_of_not_touched (l : List (String × Option ℚ))
    (mode : String) (h : mode ∉ l.map Prod.fst) :
    lookupEntry l mode = none := by
  induction l with
  | nil => rfl
  | cons hd tl ih =>
    simp only [List.map, List.mem_cons] at h
    push_neg at h
    have hne : ¬ (hd.1 = mode) := fun hc => h.1 (Eq.symm hc)
    simp only [lookupEntry]
    rw [if_neg hne]
    exact ih h.2

theorem mem_unionModes (a b : List String) (mode : String) :
    mode ∈ unionModes a b ↔ mode ∈ a ∨ mode ∈ b := by
  unfold unionModes
  rw [List.mem_append, List.mem_filter]
  constructor
  · rintro (h | ⟨h, _⟩)
    · exact Or.inl h
    · exact Or.inr h
  · intro h
    by_cases ha : mode ∈ a
    · exact Or.inl ha
    · rcases h with h | h
      · exact absurd h ha
      · exact Or.inr ⟨h, by simpa using ha⟩

theorem mixUpdate_get (o n : ProductionMix) (mode : String) :
    (mixUpdate o n).get mode =
      optFallback (n.get mode) (o.get mode) := by
  unfold mixUpdate ProductionMix.get
  rw [lookupEntry_map_modes]
  by_cases h : mode ∈ unionModes (touchedModes o) (touchedModes n)
  · rw [if_pos h]
  · rw [if_neg h]
    rw [mem_unionModes] at h
    push_neg at h
    rw [lookupEntry_eq_none_of_not_touched o.entries mode h.1,
      lookupEntry_eq_none_of_not_touched n.entries mode h.2]
    rfl

theorem storageUpdate_get (o n : StorageMix) (mode : String) :
    (storageUpdate o n).get mode =
      optFallback (n.get mode) (o.get mode) := by
  unfold storageUpdate StorageMix.get
  rw [lookupEntry_map_modes]
  by_cases h : mode ∈ unionModes (touchedStorageModes o) (touchedStorageModes n)
  · rw [if_pos h]
  · rw [if_neg h]
    rw [mem_unionModes] at h
    push_neg at h
    rw [lookupEntry_eq_none_of_not_touched o.entries mode h.1,
      lookupEntry_eq_none_of_not_touched n.entries mode h.2]
    rfl

theorem eventUpdate_getP (o n : ProductionBreakdown) (mode : String) :
    getP (eventUpdate o n).production mode =
      optFallback (getP n.production mode) (getP o.production mode) := by
  unfold eventUpdate getP omixUpdate
  cases o.production with
  | none =>
    cases n.production with
    | none => rfl
    | some n1 => cases hv : n1.get mode <;> simp [optFallback, hv]
  | some o1 =>
    cases n.production with
    | none => rfl
    | some n1 => simp [mixUpdate_get]

theorem eventUpdate_getS (o n : ProductionBreakdown) (mode : String) :
    getS (eventUpdate o n).storage mode =
      optFallback (getS n.storage mode) (getS o.storage mode) := by
  unfold eventUpdate getS osmixUpdate
  cases o.storage with
  | none =>
    cases n.storage with
    | none => rfl
    | some n1 => cases hv : n1.get mode <;> simp [optFallback, hv]
  | some o1 =>
    cases n.storage with
    | none => rfl
    | some n1 => simp [storageUpdate_get]

theorem findEvt_dt (l : List ProductionBreakdown) (t : ℤ)
    (e : ProductionBreakdown) (h : findEvt l t = some e) :
    e.datetime.utcSeconds = t := by
  have := List.find?_some h
  simpa using this

theorem findEvt_mem (l : List ProductionBreakdown) (t : ℤ)
    (e : ProductionBreakdown) (h : findEvt l t = some e) : e ∈ l :=
  List.mem_of_find?_eq_some h

theorem buildAt_dt (old new : List ProductionBreakdown) (t : ℤ)
    (e : ProductionBreakdown) (h : buildAt old new t = some e) :
    e.datetime.utcSeconds = t := by
  unfold buildAt at h
  cases ho : findEvt old t with
  | some o =>
    cases hn : findEvt new t with
    | some n =>
      rw [ho, hn] at h
      injection h with h2
      rw [← h2]
      show (eventUpdate o n).datetime.utcSeconds = t
      have : (eventUpdate o n).datetime = n.datetime := rfl
      rw [this]
      exact findEvt_dt new t n hn
    | none =>
      rw [ho, hn] at h
      injection h with h2
      rw [← h2]
      exact findEvt_dt old t o ho
  | none =>
    cases hn : findEvt new t with
    | some n =>
      rw [ho, hn] at h
      injection h with h2
      rw [← h2]
      exact findEvt_dt new t n hn
    | none => rw [ho, hn] at h; exact Option.noConfusion h

theorem findEvt_filterMap (old new : List ProductionBreakdown) :
    ∀ (ts : List ℤ), ts.Nodup → ∀ t,
      findEvt (ts.filterMap (buildAt old new)) t =
        if t ∈ ts then buildAt old new t else none := by
  intro ts
  induction ts with
  | nil => intro _ t; simp [findEvt, List.filterMap]
  | cons hd tl ih =>
    intro hnd t
    have hnd2 := List.nodup_cons.mp hnd
    cases hb : buildAt old new hd with
    | some e =>
      have he : e.datetime.utcSeconds = hd := buildAt_dt old new hd e hb
      rw [List.filterMap_cons_some hb]
      by_cases ht : t = hd
      · subst ht
        unfold findEvt
        rw [List.find?_cons_of_pos _ (by simp [he])]
        simp [hb]
      · unfold findEvt
        rw [List.find?_cons_of_neg _ (by simp [he, Ne.symm ht])]
        have := ih hnd2.2 t
        unfold findEvt at this
        rw [this]
        by_cases hm : t ∈ tl
        · rw [if_pos hm, if_pos (List.mem_cons_of_mem _ hm)]
        · rw [if_neg hm, if_neg (by simp [ht, hm])]
    | none =>
      rw [List.filterMap_cons_none hb]
      rw [ih hnd2.2 t]
      by_cases ht : t = hd
      · subst ht
        rw [if_neg hnd2.1, if_pos (by simp), hb]
      · by_cases hm : t ∈ tl
        · rw [if_pos hm, if_pos (List.mem_cons_of_mem _ hm)]
        · rw [if_neg hm, if_neg (by simp [ht, hm])]

theorem findEvt_ne_none_of_mem_dts (l : List ProductionBreakdown) (t : ℤ)
    (h : t ∈ dtsOf l) : findEvt l t ≠ none := by
  unfold dtsOf at h
  rw [List.mem_map] at h
  obtain ⟨e, he, hdt⟩ := h
  intro hc
  rw [findEvt, List.find?_eq_none] at hc
  exact absurd (by simp [hdt]) (hc e he)

theorem buildAt_ne_none_of_mem (old new : List ProductionBreakdown) (t : ℤ)
    (h : t ∈ dtsOf old ++ dtsOf new) : buildAt old new t ≠ none := by
  unfold buildAt
  rcases List.mem_append.mp h with h1 | h1
  · cases ho : findEvt old t with
    | some o => cases hn : findEvt new t <;> simp
    | none => exact absurd ho (findEvt_ne_none_of_mem_dts old t h1)
  · cases hn : findEvt new t with
    | some n => cases ho : findEvt old t <;> simp
    | none => exact absurd hn (findEvt_ne_none_of_mem_dts new t h1)

theorem length_filterMap_all_some {α β : Type} (f : α → Option β) :
    ∀ l : List α, (∀ x ∈ l, f x ≠ none) →
      (l.filterMap f).length = l.length := by
  intro l
  induction l with
  | nil => intro _; rfl
  | cons hd tl ih =>
    intro h
    cases hf : f hd with
    | none => exact absurd hf (h hd (by simp))
    | some b =>
      rw [List.filterMap_cons_some hf]
      simp only [List.length_cons]
      rw [ih (fun x hx => h x (by simp [hx]))]

theorem dedup_const {α : Type} [DecidableEq α] (z : α) :
    ∀ l : List α, l ≠ [] → (∀ x ∈ l, x = z) → l.dedup = [z] := by
  intro l
  induction l with
  | nil => intro h; exact absurd rfl h
  | cons hd tl ih =>
    intro _ h
    have hx : hd = z := h hd (by simp)
    cases tl with
    | nil =>
      subst hx
      rw [List.dedup_cons_of_not_mem (by simp), List.dedup_nil]
    | cons y tl2 =>
      have hy : y = z := h y (by simp)
      have ihh := ih (by simp) (fun a ha => h a (List.mem_cons_of_mem _ ha))
      rw [List.dedup_cons_of_mem (by rw [hx, hy]; simp)]
      exact ihh

theorem dedup_length_ne_one {α : Type} [DecidableEq α] (l : List α) (a b : α)
    (ha : a ∈ l) (hb : b ∈ l) (hab : a ≠ b) : l.dedup.length ≠ 1 := by
  intro h
  obtain ⟨x, hx⟩ := List.length_eq_one.mp h
  have h1 : a = x := by
    have := List.mem_dedup.mpr ha
    rw [hx] at this
    simpa using this
  have h2 : b = x := by
    have := List.mem_dedup.mpr hb
    rw [hx] at this
    simpa using this
  exact hab (h1.trans h2.symm)

theorem findEvt_updateMergeCore (old new : List ProductionBreakdown)
    (t : ℤ) :
    findEvt (updateMergeCore old new) t =
      if t ∈ dtsOf old ++ dtsOf new then buildAt old new t else none := by
  unfold updateMergeCore
  have hperm := List.perm_insertionSort (α := ℤ) (· ≤ ·)
    ((dtsOf old ++ dtsOf new).dedup)
  have hnd : (((dtsOf old ++ dtsOf new).dedup).insertionSort (· ≤ ·)).Nodup :=
    hperm.nodup_iff.mpr (List.nodup_dedup _)
  rw [findEvt_filterMap old new _ hnd t]
  by_cases hm : t ∈ dtsOf old ++ dtsOf new
  · rw [if_pos (hperm.mem_iff.mpr (List.mem_dedup.mpr hm)), if_pos hm]
  · rw [if_neg (fun hc => hm (List.mem_dedup.mp (hperm.mem_iff.mp hc))),
      if_neg hm]

theorem length_updateMergeCore (old new : List ProductionBreakdown) :
    (updateMergeCore old new).length =
      ((dtsOf old ++ dtsOf new).dedup).length := by
  unfold updateMergeCore
  have hperm := List.perm_insertionSort (α := ℤ) (· ≤ ·)
    ((dtsOf old ++ dtsOf new).dedup)
  rw [length_filterMap_all_some (buildAt old new) _
    (fun t htm => buildAt_ne_none_of_mem old new t
      (List.mem_dedup.mp (hperm.mem_iff.mp htm)))]
  exact hperm.length_eq

/-- C2 (counterexample): the claim says every field of a reconciled event
takes the new list's value when present.  But when both events carry a
(present) source, the reconciled event's source is the comma-joined set
union of both sources, not the new value alone, as the in-repo test
`test_update_production_with_different_source` pins. -/
theorem update_source_field_counterexample :
    (update_production_breakdowns
        [⟨"AT", ⟨100, 0, true⟩, some ⟨[("wind", some 10)], []⟩, none,
          "trust.me", .measured⟩]
        [⟨"AT", ⟨100, 0, true⟩, some ⟨[("wind", some 20)], []⟩, none,
          "trust.me.too", .measured⟩]).map
        (fun l => l.map ProductionBreakdown.source) =
      .ok ["trust.me, trust.me.too"] ∧
    "trust.me, trust.me.too" ≠ "trust.me.too" := by
  constructor
  · decide
  · decide

/-- C2 (amended): `update_production_breakdowns` over two lists with the
same zone key and source type returns one event per distinct datetime of the
union — for a datetime in both lists the reconciled event keeps the new
event's zone key, datetime and source type, takes the new value of every
production and storage mode when present and falls back to the old one
otherwise, and carries the comma-joined set union of the two source strings
(not the new source alone); a datetime present in only one list is carried
through unchanged; an empty side degenerates to the other list; mismatched
zone keys or source types fail with an invalid-input error. -/
theorem update_production_breakdowns_amended :
    (∀ (old new : List ProductionBreakdown) (o n : ProductionBreakdown),
      o ∈ old → n ∈ new →
      (o.zoneKey ≠ n.zoneKey ∨ o.sourceType ≠ n.sourceType) →
      ∃ msg, update_production_breakdowns old new = .error msg) ∧
    (∀ old new : List ProductionBreakdown,
      update_production_breakdowns [] new = .ok new ∧
      update_production_breakdowns old [] = .ok old) ∧
    (∀ (old new : List ProductionBreakdown) (z : String)
        (st : EventSourceType),
      old ≠ [] → new ≠ [] →
      (∀ e ∈ old ++ new, e.zoneKey = z) →
      (∀ e ∈ old ++ new, e.sourceType = st) →
      update_production_breakdowns old new = .ok (updateMergeCore old new) ∧
      (updateMergeCore old new).length =
        ((dtsOf old ++ dtsOf new).dedup).length ∧
      (∀ t o1 n1, findEvt old t = some o1 → findEvt new t = some n1 →
        findEvt (updateMergeCore old new) t = some (eventUpdate o1 n1)) ∧
      (∀ t o1, findEvt old t = some o1 → findEvt new t = none →
        findEvt (updateMergeCore old new) t = some o1) ∧
      (∀ t n1, findEvt old t = none → findEvt new t = some n1 →
        findEvt (updateMergeCore old new) t = some n1)) ∧
    (∀ (o n : ProductionBreakdown) (mode : String),
      getP (eventUpdate o n).production mode =
        optFallback (getP n.production mode) (getP o.production mode) ∧
      getS (eventUpdate o n).storage mode =
        optFallback (getS n.storage mode) (getS o.storage mode)) ∧
    (∀ o n : ProductionBreakdown,
      (eventUpdate o n).zoneKey = n.zoneKey ∧
      (eventUpdate o n).datetime = n.datetime ∧
      (eventUpdate o n).sourceType = n.sourceType ∧
      (eventUpdate o n).source = mergeSources o.source n.source) := by
  refine ⟨?_, ?_, ?_, ?_, ?_⟩
  · intro old new o n ho hn hmm
    have hold : old ≠ [] := List.ne_nil_of_mem ho
    have hnew : new ≠ [] := List.ne_nil_of_mem hn
    unfold update_production_breakdowns
    rw [if_neg hold, if_neg hnew]
    rcases hmm with hzz | hss
    · rw [if_pos (dedup_length_ne_one _ o.zoneKey n.zoneKey
        (List.mem_map_of_mem _ (List.mem_append_left _ ho))
        (List.mem_map_of_mem _ (List.mem_append_right _ hn)) hzz)]
      exact ⟨_, rfl⟩
    · by_cases hzc : ((old ++ new).map ProductionBreakdown.zoneKey).dedup.length ≠ 1
      · rw [if_pos hzc]
        exact ⟨_, rfl⟩
      · rw [if_neg hzc,
          if_pos (dedup_length_ne_one _ o.sourceType n.sourceType
            (List.mem_map_of_mem _ (List.mem_append_left _ ho))
            (List.mem_map_of_mem _ (List.mem_append_right _ hn)) hss)]
        exact ⟨_, rfl⟩
  · intro old new
    constructor
    · rw [update_production_breakdowns, if_pos rfl]
    · cases old with
      | nil => rw [update_production_breakdowns, if_pos rfl]
      | cons hd tl =>
        rw [update_production_breakdowns,
          if_neg (by simp : (hd :: tl : List ProductionBreakdown) ≠ []),
          if_pos rfl]
  · intro old new z st hold hnew hz hst
    have hne : old ++ new ≠ [] :=
      fun hc => hold (List.append_eq_nil.mp hc).1
    have hzd : ((old ++ new).map ProductionBreakdown.zoneKey).dedup = [z] :=
      dedup_const z _ (fun hc => hne (List.map_eq_nil_iff.mp hc))
        (fun x hx => by
          obtain ⟨e, he, rfl⟩ := List.mem_map.mp hx
          exact hz e he)
    have hstd : ((old ++ new).map ProductionBreakdown.sourceType).dedup =
        [st] :=
      dedup_const st _ (fun hc => hne (List.map_eq_nil_iff.mp hc))
        (fun x hx => by
          obtain ⟨e, he, rfl⟩ := List.mem_map.mp hx
          exact hst e he)
    refine ⟨?_, length_updateMergeCore old new, ?_, ?_, ?_⟩
    · unfold update_production_breakdowns
      rw [if_neg hold, if_neg hnew, if_neg (by rw [hzd]; simp),
        if_neg (by rw [hstd]; simp)]
    · intro t o1 n1 ho hn
      rw [findEvt_updateMergeCore]
      have hto : t ∈ dtsOf old := List.mem_map.mpr
        ⟨o1, findEvt_mem _ _ _ ho, findEvt_dt _ _ _ ho⟩
      rw [if_pos (List.mem_append.mpr (Or.inl hto))]
      unfold buildAt
      rw [ho, hn]
    · intro t o1 ho hn
      rw [findEvt_updateMergeCore]
      have hto : t ∈ dtsOf old := List.mem_map.mpr
        ⟨o1, findEvt_mem _ _ _ ho, findEvt_dt _ _ _ ho⟩
      rw [if_pos (List.mem_append.mpr (Or.inl hto))]
      unfold buildAt
      rw [ho, hn]
    · intro t n1 ho hn
      rw [findEvt_updateMergeCore]
      have htn : t ∈ dtsOf new := List.mem_map.mpr
        ⟨n1, findEvt_mem _ _ _ hn, findEvt_dt _ _ _ hn⟩
      rw [if_pos (List.mem_append.mpr (Or.inr htn))]
      unfold buildAt
      rw [ho, hn]
  · intro o n mode
    exact ⟨eventUpdate_getP o n mode, eventUpdate_getS o n mode⟩
  · intro o n
    exact ⟨rfl, rfl, rfl, rfl⟩

theorem update_production_breakdowns_amended_witness :
    (∃ msg, update_production_breakdowns
        [⟨"AT", ⟨100, 0, true⟩, some ⟨[("wind", some 10)], []⟩, none,
          "trust.me", .measured⟩]
        [⟨"DE", ⟨100, 0, true⟩, some ⟨[("wind", some 20)], []⟩, none,
          "trust.me", .measured⟩] = .error msg) ∧
    update_production_breakdowns
        [⟨"AT", ⟨100, 0, true⟩, some ⟨[("wind", some 10)], []⟩, none,
          "trust.me", .measured⟩]
        [⟨"AT", ⟨100, 0, true⟩, some ⟨[("wind", some 20)], []⟩, none,
          "trust.me", .measured⟩] =
      .ok (updateMergeCore
        [⟨"AT", ⟨100, 0, true⟩, some ⟨[("wind", some 10)], []⟩, none,
          "trust.me", .measured⟩]
        [⟨"AT", ⟨100, 0, true⟩, some ⟨[("wind", some 20)], []⟩, none,
          "trust.me", .measured⟩]) :=
  ⟨update_production_breakdowns_amended.1
     [⟨"AT", ⟨100, 0, true⟩, some ⟨[("wind", some 10)], []⟩, none,
       "trust.me", .measured⟩]
     [⟨"DE", ⟨100, 0, true⟩, some ⟨[("wind", some 20)], []⟩, none,
       "trust.me", .measured⟩]
     ⟨"AT", ⟨100, 0, true⟩, some ⟨[("wind", some 10)], []⟩, none,
       "trust.me", .measured⟩
     ⟨"DE", ⟨100, 0, true⟩, some ⟨[("wind", some 20)], []⟩, none,
       "trust.me", .measured⟩
     (by simp) (by simp) (Or.inl (by decide)),
   (update_production_breakdowns_amended.2.2.1 _ _ "AT" .measured
     (by simp) (by simp)
     (by intro e he; fin_cases he <;> rfl)
     (by intro e he; fin_cases he <;> rfl)).1⟩

end ElectricityMap
